import Mathlib

/-!
Verification development for the receipt-points service (`src/app/app.py`).

The Python source is shallowly embedded: strings become `List Char`, the
in-memory `receiptPoints` dict becomes a partial map `String → Option Nat`,
exceptions become `Option`/sum outcomes, and `re.match` against the concrete
patterns of the source is embedded per pattern, including Python's semantics
of `$` (which also matches just before a single trailing newline).
Python's Unicode character classes (`\w`, `\s`, `str.isalnum`, `str.strip`)
are modelled on their ASCII fragment.
-/

namespace FetchReceipts

/-! ### Character classes (ASCII fragment of Python's regex classes) -/

/-- ASCII fragment of Python's regex class `\w`: letters, digits, underscore. -/
def isWordChar (c : Char) : Bool := c.isAlphanum || c == '_'

/-- ASCII fragment of Python's regex class `\s` / `str` whitespace. -/
def isSpaceChar (c : Char) : Bool :=
  c == ' ' || c == '\t' || c == '\n' || c == '\r' || c == '\x0b' || c == '\x0c'

/-- Character class of the retailer pattern `[\w\s\-&]`. -/
def isRetailerChar (c : Char) : Bool := isWordChar c || isSpaceChar c || c == '-' || c == '&'

/-- Character class of the item-description pattern `[\w\s\-]` (no ampersand). -/
def isDescChar (c : Char) : Bool := isWordChar c || isSpaceChar c || c == '-'

/-- Numeric value of a digit character. -/
def digitVal (c : Char) : Nat := c.toNat - '0'.toNat

/-- Value of a digit string read in base 10 (leading zeros allowed). -/
def natOfDigits (l : List Char) : Nat := l.foldl (fun a c => 10 * a + digitVal c) 0

/-! ### `re.match` against the source's anchored patterns

Python's `$` matches at the end of the string or just before a newline that
ends the string, so `re.match(r"^P$", s)` succeeds on `s` or on `s` minus one
trailing newline.  `pyDollar core` wraps a matcher `core` for `^P` consuming
the whole input with exactly that rule. -/

def pyDollar (core : List Char → Bool) (s : List Char) : Bool :=
  core s ||
    (match s.getLast? with
     | some c => c == '\n' && core s.dropLast
     | none => false)

/-- Matcher for `^[cls]+` consuming the whole input. -/
def classPlusCore (cls : Char → Bool) (s : List Char) : Bool := !s.isEmpty && s.all cls

/-- `re.match(r"^[\w\s\-&]+$", retailer)` of the source. -/
def matchRetailer (s : List Char) : Bool := pyDollar (classPlusCore isRetailerChar) s

/-- `re.match(r"^[\w\s\-]+$", shortDescription)` of the source. -/
def matchDesc (s : List Char) : Bool := pyDollar (classPlusCore isDescChar) s

/-- Matcher for `^\d+\.\d{2}` consuming the whole input: one or more digits,
a dot, exactly two digits. -/
def matchPriceCore (s : List Char) : Bool :=
  match s.reverse with
  | d2 :: d1 :: '.' :: ds => d2.isDigit && d1.isDigit && !ds.isEmpty && ds.all Char.isDigit
  | _ => false

/-- `re.match(r"^\d+\.\d{2}$", s)` of the source (item price and total). -/
def matchPrice (s : List Char) : Bool := pyDollar matchPriceCore s

/-- Matcher for `^([01]?[0-9]|2[0-3]):([0-5][0-9])` consuming the whole input.
The hour is one digit, or `[01]` then a digit, or `2` then `[0-3]`. -/
def matchTimeCore (s : List Char) : Bool :=
  match s with
  | [h, ':', m1, m2] => h.isDigit && ('0' ≤ m1 && m1 ≤ '5') && m2.isDigit
  | [h1, h2, ':', m1, m2] =>
      (((h1 == '0' || h1 == '1') && h2.isDigit) || (h1 == '2' && ('0' ≤ h2 && h2 ≤ '3'))) &&
      ('0' ≤ m1 && m1 ≤ '5') && m2.isDigit
  | _ => false

/-- `re.match(r"^([01]?[0-9]|2[0-3]):([0-5][0-9])$", purchaseTime)` of the source. -/
def matchTime (s : List Char) : Bool := pyDollar matchTimeCore s

/-! ### `datetime.strptime(purchaseDate, "%Y-%m-%d")`

CPython's `_strptime` compiles the format to the regex
`\d\d\d\d` `-` `(\d\d|\d)` `-` `(\d\d|\d)`, requires the match to consume the
entire string, and then builds a `datetime`, which range-checks year (≥ 1),
month and day.  So the month and the day may be one or two digits. -/

def isLeapYear (y : Nat) : Bool := (y % 4 == 0 && y % 100 != 0) || y % 400 == 0

def daysInMonth (y m : Nat) : Nat :=
  if m = 2 then (if isLeapYear y then 29 else 28)
  else if m = 4 || m = 6 || m = 9 || m = 11 then 30
  else 31

/-- `datetime(y, m, d)` constructor range check (year from four digits, so
the upper year bound 9999 is automatic). -/
def validDate (y m d : Nat) : Bool :=
  1 ≤ y && 1 ≤ m && m ≤ 12 && 1 ≤ d && d ≤ daysInMonth y m

/-- Consume `(\d\d|\d)` (greedy, with backtracking) followed by a literal
`-`; return the numeric value and the rest of the input. -/
def parseCompDash (s : List Char) : Option (Nat × List Char) :=
  match s with
  | a :: b :: c :: r =>
      if a.isDigit && b.isDigit && c == '-' then some (10 * digitVal a + digitVal b, r)
      else if a.isDigit && b == '-' then some (digitVal a, c :: r)
      else none
  | [a, b] => if a.isDigit && b == '-' then some (digitVal a, []) else none
  | _ => none

/-- Consume `(\d\d|\d)` which must end the input; return the numeric value. -/
def parseCompEnd (s : List Char) : Option Nat :=
  match s with
  | [a, b] => if a.isDigit && b.isDigit then some (10 * digitVal a + digitVal b) else none
  | [a] => if a.isDigit then some (digitVal a) else none
  | _ => none

/-- The `purchaseDate` check of `validateInput`: `strptime(s, "%Y-%m-%d")`
succeeds (returns `true`) or raises `ValueError` (returns `false`). -/
def validPurchaseDate (s : List Char) : Bool :=
  match s with
  | y1 :: y2 :: y3 :: y4 :: '-' :: rest =>
      if y1.isDigit && y2.isDigit && y3.isDigit && y4.isDigit then
        match parseCompDash rest with
        | some (m, rest2) =>
            match parseCompEnd rest2 with
            | some d => validDate (natOfDigits [y1, y2, y3, y4]) m d
            | none => false
        | none => false
      else false
  | _ => false

/-! ### Data model -/

structure Item where
  shortDescription : List Char
  price : List Char
deriving DecidableEq

structure Receipt where
  retailer : List Char
  purchaseDate : List Char
  purchaseTime : List Char
  items : List Item
  total : List Char
deriving DecidableEq

/-- The distinct `HTTPException(status_code=400, detail=...)` reasons raised
by `validateInput`, one per validation rule. -/
inductive ValidationError where
  | invalidRetailer
  | invalidPurchaseDate
  | invalidPurchaseTime
  | emptyItems
  | invalidItemDescription (d : List Char)
  | invalidItemPrice (p : List Char)
  | invalidTotal
deriving DecidableEq

/-- The per-item loop of `validateInput`: first failing item check aborts. -/
def validateItems : List Item → Option ValidationError
  | [] => none
  | it :: rest =>
      if !matchDesc it.shortDescription then some (.invalidItemDescription it.shortDescription)
      else if !matchPrice it.price then some (.invalidItemPrice it.price)
      else validateItems rest

/-- `validateInput(receipt)`: `none` when validation passes, `some e` when the
first failing check raises the 400 error `e`. -/
def validateInput (r : Receipt) : Option ValidationError :=
  if !matchRetailer r.retailer then some .invalidRetailer
  else if !validPurchaseDate r.purchaseDate then some .invalidPurchaseDate
  else if !matchTime r.purchaseTime then some .invalidPurchaseTime
  else if r.items.isEmpty then some .emptyItems
  else
    match validateItems r.items with
    | some e => some e
    | none => if !matchPrice r.total then some .invalidTotal else none

/-! ### Python primitives used by `calculatePoint` -/

/-- `str.strip()` (ASCII whitespace fragment). -/
def pyStrip (s : List Char) : List Char :=
  ((s.dropWhile isSpaceChar).reverse.dropWhile isSpaceChar).reverse

/-- Base-10 value of a list of characters, `none` if any is not a digit. -/
def digitsVal (l : List Char) : Option Nat :=
  l.foldl
    (fun acc c =>
      match acc with
      | none => none
      | some v => if c.isDigit then some (10 * v + digitVal c) else none)
    (some 0)

/-- Nonempty all-digit value. -/
def digitsVal1 (l : List Char) : Option Nat :=
  if l.isEmpty then none else digitsVal l

/-- `int(s)` for a base-10 string: surrounding whitespace ignored, optional
sign, then one or more digits; `ValueError` becomes `none`.
(PEP 515 underscore grouping is not modelled; no validator pattern admits
underscores in a numeric position.) -/
def pyInt (s : List Char) : Option Int :=
  match pyStrip s with
  | '-' :: ds => (digitsVal1 ds).map (fun n => -(n : Int))
  | '+' :: ds => (digitsVal1 ds).map (fun n => (n : Int))
  | ds => (digitsVal1 ds).map (fun n => (n : Int))

/-- `s[-2:]`: the last two characters (the whole string when shorter). -/
def takeLast2 (l : List Char) : List Char := l.drop (l.length - 2)

/-- `s.split('.')[-1]`: the segment after the last dot (the whole string when
there is no dot). -/
def afterLastDot (s : List Char) : List Char :=
  (s.reverse.takeWhile (fun c => c != '.')).reverse

/-! ### IEEE-754 binary64, modelled exactly on dyadic rationals

A nonnegative double is a pair `(m, e)` denoting `m * 2^e`.  `rnd64 n d`
rounds the positive rational `n / d` to the nearest double
(round-to-nearest, ties to even), which is the semantics of Python's `float`
literals, `float(str)` and float multiplication.  Subnormals and overflow are
outside the range exercised here and are not modelled. -/

/-- Fuelled base-2 logarithm (structurally recursive, kernel-reducible). -/
def log2F : Nat → Nat → Nat
  | 0, _ => 0
  | f + 1, n => if 2 ≤ n then log2F f (n / 2) + 1 else 0

/-- `⌊log2 (n/d)⌋` for `2^(-200) < n/d < 2^200`. -/
def floorLog2 (n d : Nat) : Int :=
  (log2F 440 (n * 2 ^ 200 / d) : Int) - 200

/-- Round the nonnegative rational `n / d` to the nearest binary64 value
(ties to even); result is `(mantissa, exponent)` with value
`mantissa * 2^exponent`. -/
def rnd64 (n d : Nat) : Nat × Int :=
  if n = 0 then (0, 0)
  else
    let e : Int := floorLog2 n d
    let s : Int := 52 - e
    let N : Nat := if 0 ≤ s then n * 2 ^ s.toNat else n
    let D : Nat := if 0 ≤ s then d else d * 2 ^ (-s).toNat
    let q := N / D
    let r := N % D
    let m := if D < 2 * r then q + 1 else if 2 * r < D then q else if q % 2 = 0 then q else q + 1
    (m, -s)

/-- Binary64 multiplication of nonnegative doubles: exact product, then
round to nearest. -/
def mulD (a b : Nat × Int) : Nat × Int :=
  let e : Int := a.2 + b.2
  if 0 ≤ e then rnd64 (a.1 * b.1 * 2 ^ e.toNat) 1
  else rnd64 (a.1 * b.1) (2 ^ (-e).toNat)

/-- `math.ceil` of a nonnegative double. -/
def ceilD (a : Nat × Int) : Nat :=
  if 0 ≤ a.2 then a.1 * 2 ^ a.2.toNat
  else (a.1 + 2 ^ (-a.2).toNat - 1) / 2 ^ (-a.2).toNat

/-- Split at the first dot. -/
def splitAtDot : List Char → Option (List Char × List Char)
  | [] => none
  | '.' :: r => some ([], r)
  | c :: r =>
      match splitAtDot r with
      | some (a, b) => some (c :: a, b)
      | none => none

/-- `float(s)` on the decimal strings `digits.digits` the validator admits
(surrounding whitespace ignored): the exact decimal value rounded to the
nearest binary64.  Other `float` spellings are not modelled and give `none`. -/
def pyFloat (s : List Char) : Option (Nat × Int) :=
  match splitAtDot (pyStrip s) with
  | none => none
  | some (ip, fp) =>
      if ip.isEmpty then none
      else
        match digitsVal ip, digitsVal fp with
        | some a, some b => some (rnd64 (a * 10 ^ fp.length + b) (10 ^ fp.length))
        | _, _ => none

/-- The literal `0.2` of the source as a binary64 value. -/
def lit0p2 : Nat × Int := rnd64 2 10

/-! ### The scorer `calculatePoint`

Each rule of the source is one definition; a Python runtime exception
(`ValueError` from `int`) is `none`. -/

/-- One point for every alphanumeric character in the retailer name. -/
def retailerPoints (retailer : List Char) : Nat :=
  (retailer.filter Char.isAlphanum).length

/-- `day = int(purchaseDate[-2:])`; 6 points if the day is odd
(Python `%` on a negative operand, like Lean `Int.emod`, yields a
nonnegative remainder for a positive modulus). -/
def dayPoints (purchaseDate : List Char) : Option Nat :=
  (pyInt (takeLast2 purchaseDate)).map (fun day => if day % 2 = 1 then 6 else 0)

/-- `time = int(purchaseTime[:2])`; 10 points if `14 <= time < 16`. -/
def timePoints (purchaseTime : List Char) : Option Nat :=
  (pyInt (purchaseTime.take 2)).map (fun t => if 14 ≤ t ∧ t < 16 then 10 else 0)

/-- 5 points for every two items on the receipt. -/
def pairPoints (items : List Item) : Nat := items.length / 2 * 5

/-- Description-length rule for one item: if the trimmed description length
is a multiple of 3, `ceil(float(price) * 0.2)` points. -/
def itemPoints (it : Item) : Option Nat :=
  if (pyStrip it.shortDescription).length % 3 = 0 then
    (pyFloat it.price).map (fun f => ceilD (mulD f lit0p2))
  else some 0

/-- Sum of `itemPoints` over the item loop. -/
def itemsPoints : List Item → Option Nat
  | [] => some 0
  | it :: rest =>
      match itemPoints it, itemsPoints rest with
      | some a, some b => some (a + b)
      | _, _ => none

/-- `cents = int(total.split('.')[-1])`. -/
def centsOf (total : List Char) : Option Int := pyInt (afterLastDot total)

/-- 50 points if the total is a round dollar amount (`cents == 0`). -/
def roundDollarBonus (cents : Int) : Nat := if cents = 0 then 50 else 0

/-- 25 points if the cents value is a multiple of 25 (`cents % 25 == 0`). -/
def quarterBonus (cents : Int) : Nat := if cents % 25 = 0 then 25 else 0

/-- The two bonuses computed from `total` by `calculatePoint`. -/
def totalPoints (total : List Char) : Option Nat :=
  (centsOf total).map (fun cents => roundDollarBonus cents + quarterBonus cents)

/-- The `receiptPoints` dict: a partial map from identifier to points. -/
def Store : Type := String → Option Nat

/-- The empty dict. -/
def emptyStore : Store := fun _ => none

/-- Python dict assignment `receiptPoints[uniqueId] = points`. -/
def dictSet (s : Store) (k : String) (v : Nat) : Store :=
  fun x => if x = k then some v else s x

/-- `calculatePoint(retailer, purchaseDate, purchaseTime, items, total,
uniqueId)`: computes the point total and stores it under `uniqueId`;
`none` when a `ValueError` escapes (the function raises). -/
def calculatePoint (retailer purchaseDate purchaseTime : List Char) (items : List Item)
    (total : List Char) (uniqueId : String) (receiptPoints : Store) : Option Store :=
  match dayPoints purchaseDate, timePoints purchaseTime, itemsPoints items, totalPoints total with
  | some dp, some tp, some ip, some bp =>
      some (dictSet receiptPoints uniqueId
        (retailerPoints retailer + dp + tp + pairPoints items + ip + bp))
  | _, _, _, _ => none

/-! ### The two endpoints -/

/-- The 404 outcome of `getPoints`. -/
inductive GetError where
  | notFound
deriving DecidableEq

/-- `getPoints(id)`: 404 when the id is not in the dict, otherwise the stored
points; the second component is the dict after the call. -/
def getPoints (s : Store) (id : String) : Except GetError Nat × Store :=
  match s id with
  | none => (.error .notFound, s)
  | some p => (.ok p, s)

/-- Observable outcome of `processReceipt`. -/
inductive Outcome where
  | rejected (e : ValidationError)
  | crashed
  | ok (id : String)
deriving DecidableEq

/-- `processReceipt(receipt)` with the generated `uuid4` string passed in as
`uniqueId`: validate, then score and store, then return the id.  `crashed`
records an uncaught runtime exception inside `calculatePoint`. -/
def processReceipt (r : Receipt) (uniqueId : String) (s : Store) : Outcome × Store :=
  match validateInput r with
  | some e => (.rejected e, s)
  | none =>
      match calculatePoint r.retailer r.purchaseDate r.purchaseTime r.items r.total uniqueId s with
      | some s' => (.ok uniqueId, s')
      | none => (.crashed, s)

/-! ### Concrete receipts used by the claims -/

/-- The end-to-end example receipt of the spec (retailer Target, one Pepsi
item). -/
def targetReceipt : Receipt :=
  { retailer := "Target".data
    purchaseDate := "2022-01-01".data
    purchaseTime := "13:01".data
    items := [{ shortDescription := "Pepsi - 12-oz".data, price := "1.25".data }]
    total := "1.25".data }

/-- The example receipt with a single-digit-hour purchase time, which the
time pattern accepts. -/
def singleDigitHourReceipt : Receipt :=
  { targetReceipt with purchaseTime := "9:00".data }

/-- The example receipt with a retailer the retailer pattern rejects. -/
def badRetailerReceipt : Receipt :=
  { targetReceipt with retailer := "Tar!get".data }

/-! ### Theorems for the claims -/

lemma getPoints_snd (s : Store) (id : String) : (getPoints s id).2 = s := by
  unfold getPoints
  cases s id <;> rfl

/-- Claim C10: `getPoints` is read-only on the ledger: for every identifier
and every store state, the store after the call is exactly the store before
the call. -/
theorem claim10_getPoints_readonly (s : Store) (id : String) : (getPoints s id).2 = s :=
  getPoints_snd s id

/-- Claim C8: for every identifier not present in the store, `getPoints`
yields the not-found outcome and leaves the store unchanged, never a stale or
default score. -/
theorem claim8_unknown_id_not_found (s : Store) (id : String) (h : s id = none) :
    getPoints s id = (.error .notFound, s) := by
  unfold getPoints
  rw [h]

/-- Witness for C8 at the empty store and a concrete identifier. -/
theorem claim8_witness :
    emptyStore "unknown-id" = none ∧
      getPoints emptyStore "unknown-id" = (.error .notFound, emptyStore) :=
  ⟨rfl, claim8_unknown_id_not_found emptyStore "unknown-id" rfl⟩

/-- Claim C5: on the spec's end-to-end example (Target, 2022-01-01, 13:01,
one Pepsi item, total 1.25) validation passes and the scorer computes exactly
37 points (6 retailer + 6 odd day + 0 time + 0 pairs + 0 description + 25
quarter-multiple) and stores them under the generated identifier. -/
theorem claim5_target_receipt_scores_37 :
    validateInput targetReceipt = none ∧
      ∀ (uniqueId : String) (s : Store),
        calculatePoint targetReceipt.retailer targetReceipt.purchaseDate
            targetReceipt.purchaseTime targetReceipt.items targetReceipt.total uniqueId s =
          some (dictSet s uniqueId 37) :=
  ⟨rfl, fun _ _ => rfl⟩

/-- Claim C1 (refuted by the code): the receipt with purchaseTime `"9:00"`
passes `validateInput`, yet `calculatePoint` evaluates `int("9:")` — the
first two characters of the time — and raises `ValueError`, so the scorer
crashes on a validated receipt. -/
theorem claim1_validated_single_digit_hour_crashes_scorer :
    validateInput singleDigitHourReceipt = none ∧
      ∀ (uniqueId : String) (s : Store),
        calculatePoint singleDigitHourReceipt.retailer singleDigitHourReceipt.purchaseDate
            singleDigitHourReceipt.purchaseTime singleDigitHourReceipt.items
            singleDigitHourReceipt.total uniqueId s = none ∧
          processReceipt singleDigitHourReceipt uniqueId s = (.crashed, s) :=
  ⟨rfl, fun _ _ => ⟨rfl, rfl⟩⟩

/-- Claim C4: whenever the cents value of `total` is computed, the scorer's
contribution from `total` is the round-dollar bonus plus the quarter bonus,
the quarter bonus is 25 exactly when the cents value is a multiple of 25
(and 0 otherwise), and the stacking example `"100.00"` contributes
50 + 25 = 75. -/
theorem claim4_quarter_bonus :
    (∀ (total : List Char) (cents : Int), centsOf total = some cents →
        totalPoints total = some (roundDollarBonus cents + quarterBonus cents) ∧
          (quarterBonus cents = 25 ↔ cents % 25 = 0) ∧
          (quarterBonus cents = 0 ↔ ¬cents % 25 = 0)) ∧
      totalPoints "100.00".data = some (50 + 25) := by
  refine ⟨fun total cents h => ⟨?_, ?_, ?_⟩, rfl⟩
  · simp [totalPoints, h]
  · by_cases hc : cents % 25 = 0 <;> simp [quarterBonus, hc]
  · by_cases hc : cents % 25 = 0 <;> simp [quarterBonus, hc]

/-- Witness for C4 at the concrete total `"1.25"` (cents 25). -/
theorem claim4_witness :
    totalPoints "1.25".data = some (roundDollarBonus 25 + quarterBonus 25) ∧
      (quarterBonus 25 = 25 ↔ (25 : Int) % 25 = 0) ∧
      (quarterBonus 25 = 0 ↔ ¬(25 : Int) % 25 = 0) :=
  claim4_quarter_bonus.1 "1.25".data 25 rfl

set_option maxRecDepth 40000 in
lemma descRuleOn649 : (pyFloat "6.49".data).map (fun f => ceilD (mulD f lit0p2)) = some 2 := by
  decide

/-- Claim C9: for every item with price `"6.49"` whose trimmed description
length is a multiple of 3, the description rule contributes exactly
`ceil(6.49 * 0.2) = 2` points — the binary64 products round to a value in
the open interval (1, 2). -/
theorem claim9_price_649_contributes_2 (desc : List Char)
    (h : (pyStrip desc).length % 3 = 0) :
    itemPoints { shortDescription := desc, price := "6.49".data } = some 2 := by
  unfold itemPoints
  rw [if_pos h]
  exact descRuleOn649

/-- Witness for C9 at the empty description (trimmed length 0). -/
theorem claim9_witness :
    (pyStrip []).length % 3 = 0 ∧
      itemPoints { shortDescription := [], price := "6.49".data } = some 2 :=
  ⟨rfl, claim9_price_649_contributes_2 [] rfl⟩

/-! ### Operation sequences over the store (for the persistence claim) -/

/-- One request against the service: submit a receipt (with its generated
identifier) or query an identifier. -/
inductive Op where
  | submit (r : Receipt) (uid : String)
  | query (qid : String)

/-- The store after serving one request. -/
def runOp (s : Store) : Op → Store
  | .submit r uid => (processReceipt r uid s).2
  | .query qid => (getPoints s qid).2

/-- The store after serving a sequence of requests. -/
def runOps (s : Store) : List Op → Store
  | [] => s
  | op :: rest => runOps (runOp s op) rest

/-- Every submission in the sequence uses an identifier different from `id`
(freshly generated identifiers never repeat an existing one). -/
def avoidsId (ops : List Op) (id : String) : Bool :=
  ops.all fun op =>
    match op with
    | .submit _ uid => uid != id
    | .query _ => true

lemma dictSet_same (s : Store) (k : String) (v : Nat) : dictSet s k v k = some v := by
  simp [dictSet]

lemma dictSet_ne (s : Store) (k x : String) (v : Nat) (h : x ≠ k) :
    dictSet s k v x = s x := by
  simp [dictSet, h]

lemma calculatePoint_lookup_ne (retailer purchaseDate purchaseTime : List Char)
    (items : List Item) (total : List Char) (uid : String) (s s' : Store) (id : String)
    (hne : uid ≠ id)
    (h : calculatePoint retailer purchaseDate purchaseTime items total uid s = some s') :
    s' id = s id := by
  unfold calculatePoint at h
  cases hd : dayPoints purchaseDate <;> rw [hd] at h
  case none => exact absurd h (by simp)
  cases ht : timePoints purchaseTime <;> rw [ht] at h
  case none => exact absurd h (by simp)
  cases hi : itemsPoints items <;> rw [hi] at h
  case none => exact absurd h (by simp)
  cases hb : totalPoints total <;> rw [hb] at h
  case none => exact absurd h (by simp)
  simp only [Option.some.injEq] at h
  rw [← h]
  exact dictSet_ne s uid id _ (Ne.symm hne)

lemma calculatePoint_lookup_same (retailer purchaseDate purchaseTime : List Char)
    (items : List Item) (total : List Char) (uid : String) (s s' : Store)
    (h : calculatePoint retailer purchaseDate purchaseTime items total uid s = some s') :
    ∃ p : Nat, s' uid = some p := by
  unfold calculatePoint at h
  cases hd : dayPoints purchaseDate <;> rw [hd] at h
  case none => exact absurd h (by simp)
  cases ht : timePoints purchaseTime <;> rw [ht] at h
  case none => exact absurd h (by simp)
  cases hi : itemsPoints items <;> rw [hi] at h
  case none => exact absurd h (by simp)
  cases hb : totalPoints total <;> rw [hb] at h
  case none => exact absurd h (by simp)
  simp only [Option.some.injEq] at h
  exact ⟨_, by rw [← h]; exact dictSet_same s uid _⟩

lemma processReceipt_lookup_ne (r : Receipt) (uid : String) (s : Store) (id : String)
    (hne : uid ≠ id) : (processReceipt r uid s).2 id = s id := by
  unfold processReceipt
  cases hv : validateInput r
  · cases hc : calculatePoint r.retailer r.purchaseDate r.purchaseTime r.items r.total uid s
    · rfl
    · exact calculatePoint_lookup_ne _ _ _ _ _ _ _ _ _ hne hc
  · rfl

lemma runOps_lookup (ops : List Op) (s : Store) (id : String) (p : Nat)
    (hs : s id = some p) (hfresh : avoidsId ops id = true) :
    runOps s ops id = some p := by
  induction ops generalizing s with
  | nil => exact hs
  | cons op rest ih =>
      have hcons := hfresh
      rw [avoidsId, List.all_cons, Bool.and_eq_true] at hcons
      have hop : runOp s op id = some p := by
        cases op with
        | submit r uid =>
            have huid : uid ≠ id := bne_iff_ne.mp hcons.1
            rw [runOp, processReceipt_lookup_ne r uid s id huid]
            exact hs
        | query qid => rw [runOp, getPoints_snd]; exact hs
      exact ih (runOp s op) hop hcons.2

/-- Claim C7: a successful submission stores some point total under the
freshly generated identifier, and after any further sequence of requests
whose submissions use other fresh identifiers, querying that identifier
still returns exactly that total (entries are never overwritten or
mutated). -/
theorem claim7_stored_points_persist (r : Receipt) (uniqueId : String) (s0 : Store)
    (ops : List Op) (hok : (processReceipt r uniqueId s0).1 = .ok uniqueId)
    (hfresh : avoidsId ops uniqueId = true) :
    ∃ p : Nat,
      (processReceipt r uniqueId s0).2 uniqueId = some p ∧
        getPoints (runOps (processReceipt r uniqueId s0).2 ops) uniqueId =
          (.ok p, runOps (processReceipt r uniqueId s0).2 ops) := by
  cases hv : validateInput r with
  | some e =>
      have heq : processReceipt r uniqueId s0 = (.rejected e, s0) := by
        unfold processReceipt; rw [hv]
      rw [heq] at hok
      simp at hok
  | none =>
      cases hc : calculatePoint r.retailer r.purchaseDate r.purchaseTime r.items r.total
          uniqueId s0 with
      | none =>
          have heq : processReceipt r uniqueId s0 = (.crashed, s0) := by
            unfold processReceipt; rw [hv, hc]
          rw [heq] at hok
          simp at hok
      | some s' =>
          have heq : processReceipt r uniqueId s0 = (.ok uniqueId, s') := by
            unfold processReceipt; rw [hv, hc]
          obtain ⟨p, hp⟩ := calculatePoint_lookup_same _ _ _ _ _ _ _ _ hc
          rw [heq]
          refine ⟨p, hp, ?_⟩
          show getPoints (runOps s' ops) uniqueId = (.ok p, runOps s' ops)
          have hlook := runOps_lookup ops s' uniqueId p hp hfresh
          unfold getPoints
          rw [hlook]

/-- Witness for C7: process the Target receipt into the empty store under
identifier u1, then serve a query for u1 and a fresh submission under u2. -/
theorem claim7_witness :
    ∃ p : Nat,
      (processReceipt targetReceipt "u1" emptyStore).2 "u1" = some p ∧
        getPoints
            (runOps (processReceipt targetReceipt "u1" emptyStore).2
              [Op.query "u1", Op.submit targetReceipt "u2"]) "u1" =
          (.ok p,
            runOps (processReceipt targetReceipt "u1" emptyStore).2
              [Op.query "u1", Op.submit targetReceipt "u2"]) :=
  claim7_stored_points_persist targetReceipt "u1" emptyStore
    [Op.query "u1", Op.submit targetReceipt "u2"] rfl rfl

/-! ### The seven validation rules, individually -/

/-- Rule 1: the retailer matches its pattern. -/
def ruleRetailerOK (r : Receipt) : Bool := matchRetailer r.retailer

/-- Rule 2: the purchase date parses as a loose `%Y-%m-%d` calendar date. -/
def ruleDateOK (r : Receipt) : Bool := validPurchaseDate r.purchaseDate

/-- Rule 3: the purchase time matches its pattern. -/
def ruleTimeOK (r : Receipt) : Bool := matchTime r.purchaseTime

/-- Rule 4: at least one item is present. -/
def ruleItemsNonempty (r : Receipt) : Bool := !r.items.isEmpty

/-- Rules 5 and 6: every item's description and price match their patterns. -/
def ruleItemsOK (r : Receipt) : Bool :=
  r.items.all fun it => matchDesc it.shortDescription && matchPrice it.price

/-- Rule 7: the total matches the price pattern. -/
def ruleTotalOK (r : Receipt) : Bool := matchPrice r.total

/-- All validation rules hold. -/
def allRulesOK (r : Receipt) : Bool :=
  ruleRetailerOK r && ruleDateOK r && ruleTimeOK r && ruleItemsNonempty r &&
    ruleItemsOK r && ruleTotalOK r

/-- The reported reason names a rule the receipt actually violates. -/
def violatedBy (r : Receipt) : ValidationError → Prop
  | .invalidRetailer => ruleRetailerOK r = false
  | .invalidPurchaseDate => ruleDateOK r = false
  | .invalidPurchaseTime => ruleTimeOK r = false
  | .emptyItems => ruleItemsNonempty r = false
  | .invalidItemDescription d =>
      ∃ it ∈ r.items, it.shortDescription = d ∧ matchDesc d = false
  | .invalidItemPrice p => ∃ it ∈ r.items, it.price = p ∧ matchPrice p = false
  | .invalidTotal => ruleTotalOK r = false

lemma validateItems_none_iff (items : List Item) :
    validateItems items = none ↔
      (items.all fun it => matchDesc it.shortDescription && matchPrice it.price) = true := by
  induction items with
  | nil => simp [validateItems]
  | cons it rest ih =>
      cases hd : matchDesc it.shortDescription <;> cases hp : matchPrice it.price <;>
        simp [validateItems, hd, hp, ih]

lemma validateItems_some_spec (items : List Item) (e : ValidationError)
    (h : validateItems items = some e) :
    (∃ d, e = .invalidItemDescription d ∧
        ∃ it ∈ items, it.shortDescription = d ∧ matchDesc d = false) ∨
      (∃ p, e = .invalidItemPrice p ∧ ∃ it ∈ items, it.price = p ∧ matchPrice p = false) := by
  induction items with
  | nil => simp [validateItems] at h
  | cons it rest ih =>
      unfold validateItems at h
      cases hd : matchDesc it.shortDescription
      · rw [hd] at h
        simp at h
        left
        exact ⟨it.shortDescription, h.symm, it, List.mem_cons_self it rest, rfl, hd⟩
      · rw [hd] at h
        cases hp : matchPrice it.price
        · rw [hp] at h
          simp at h
          right
          exact ⟨it.price, h.symm, it, List.mem_cons_self it rest, rfl, hp⟩
        · rw [hp] at h
          simp at h
          rcases ih h with ⟨d, he, it2, hm, hd2, hf⟩ | ⟨p, he, it2, hm, hp2, hf⟩
          · exact Or.inl ⟨d, he, it2, List.mem_cons_of_mem it hm, hd2, hf⟩
          · exact Or.inr ⟨p, he, it2, List.mem_cons_of_mem it hm, hp2, hf⟩

lemma validateInput_none_iff (r : Receipt) :
    validateInput r = none ↔ allRulesOK r = true := by
  unfold validateInput allRulesOK ruleRetailerOK ruleDateOK ruleTimeOK ruleItemsNonempty
    ruleItemsOK ruleTotalOK
  cases hR : matchRetailer r.retailer
  · simp [hR]
  cases hD : validPurchaseDate r.purchaseDate
  · simp [hD]
  cases hT : matchTime r.purchaseTime
  · simp [hT]
  cases hE : r.items.isEmpty
  · cases hIt : validateItems r.items
    · cases hTot : matchPrice r.total <;>
        simp [hE, hTot, (validateItems_none_iff r.items).mp hIt]
    · have : (r.items.all fun it =>
          matchDesc it.shortDescription && matchPrice it.price) = false := by
        cases hall : r.items.all fun it => matchDesc it.shortDescription && matchPrice it.price
        · rfl
        · rw [(validateItems_none_iff r.items).mpr hall] at hIt; cases hIt
      simp [hE, hIt, this]
  · simp [hE]

lemma validateInput_some_violatedBy (r : Receipt) (e : ValidationError)
    (h : validateInput r = some e) : violatedBy r e := by
  unfold validateInput at h
  cases hR : matchRetailer r.retailer <;> rw [hR] at h
  · simp at h
    subst h
    exact hR
  cases hD : validPurchaseDate r.purchaseDate <;> rw [hD] at h
  · simp at h
    subst h
    exact hD
  cases hT : matchTime r.purchaseTime <;> rw [hT] at h
  · simp at h
    subst h
    exact hT
  cases hE : r.items.isEmpty <;> rw [hE] at h
  case true =>
    simp at h
    subst h
    simp [violatedBy, ruleItemsNonempty, hE]
  simp only [Bool.not_false, if_false, Bool.false_eq_true, ite_false] at h
  cases hIt : validateItems r.items <;> rw [hIt] at h
  case none =>
    cases hTot : matchPrice r.total <;> rw [hTot] at h
    · simp at h
      subst h
      exact hTot
    · simp at h
  case some e2 =>
    simp at h
    subst h
    rcases validateItems_some_spec r.items e2 hIt with ⟨d, he, hex⟩ | ⟨p, he, hex⟩ <;>
      rw [he] <;> exact hex

/-- Claim C3: whenever any validation rule is violated, `validateInput`
reports a `ValidationError` whose reason names a rule the receipt violates,
`processReceipt` performs no scoring and generates no identifier (the outcome
is `rejected`), and the `receiptPoints` store is left exactly unchanged. -/
theorem claim3_any_violation_fails_closed (r : Receipt) (uniqueId : String) (s : Store)
    (h : allRulesOK r = false) :
    ∃ e : ValidationError,
      validateInput r = some e ∧ violatedBy r e ∧
        processReceipt r uniqueId s = (.rejected e, s) := by
  cases he : validateInput r with
  | none =>
      rw [(validateInput_none_iff r).mp he] at h
      cases h
  | some e =>
      refine ⟨e, rfl, validateInput_some_violatedBy r e he, ?_⟩
      unfold processReceipt
      rw [he]

/-- Witness for C3 at a receipt whose retailer contains a forbidden
character. -/
theorem claim3_witness :
    ∃ e : ValidationError,
      validateInput badRetailerReceipt = some e ∧ violatedBy badRetailerReceipt e ∧
        processReceipt badRetailerReceipt "u" emptyStore = (.rejected e, emptyStore) :=
  claim3_any_violation_fails_closed badRetailerReceipt "u" emptyStore (by decide)

/-! ### Full-match characterisation of the retailer rule (claim C6) -/

lemma matchRetailer_iff (s : List Char) :
    matchRetailer s = true ↔ (s ≠ [] ∧ ∀ c ∈ s, isRetailerChar c = true) := by
  unfold matchRetailer pyDollar classPlusCore
  rw [Bool.or_eq_true]
  constructor
  · rintro (h | h)
    · rw [Bool.and_eq_true] at h
      exact ⟨by simpa using h.1, by simpa [List.all_eq_true] using h.2⟩
    · cases hl : s.getLast? with
      | none => rw [hl] at h; simp at h
      | some c =>
          rw [hl] at h
          simp only [Bool.and_eq_true, beq_iff_eq] at h
          obtain ⟨hc, hrest⟩ := h
          have hs : s.dropLast ++ [c] = s :=
            List.dropLast_append_getLast? c (by rw [hl]; rfl)
          constructor
          · intro hnil
            rw [hnil] at hl
            cases hl
          · intro x hx
            rw [← hs] at hx
            rcases List.mem_append.mp hx with hx | hx
            · exact List.all_eq_true.mp hrest.2 x hx
            · have hxc : x = c := by simpa using hx
              rw [hxc, hc]
              rfl
  · rintro ⟨hne, hall⟩
    left
    rw [Bool.and_eq_true]
    exact ⟨by simpa using hne, List.all_eq_true.mpr hall⟩

/-- Claim C6: `validateInput` accepts the retailer field (does not report the
invalid-retailer reason) if and only if the entire retailer string matches
the class pattern: it is nonempty and every character is a word character,
whitespace, hyphen or ampersand. -/
theorem claim6_retailer_accept_iff_full_match (r : Receipt) :
    validateInput r ≠ some ValidationError.invalidRetailer ↔
      (r.retailer ≠ [] ∧ ∀ c ∈ r.retailer, isRetailerChar c = true) := by
  rw [← matchRetailer_iff]
  constructor
  · intro h
    cases hR : matchRetailer r.retailer
    · exfalso
      apply h
      unfold validateInput
      rw [hR]
      rfl
    · rfl
  · intro hR hsome
    have hv := validateInput_some_violatedBy r _ hsome
    simp only [violatedBy, ruleRetailerOK] at hv
    rw [hR] at hv
    cases hv

/-! ### The loose calendar-date grammar actually accepted (claim C2) -/

/-- The claim's strict grammar, from the spec's words: exactly
four-digit year, two-digit month, two-digit day, forming a valid date. -/
def exactYMD (s : List Char) : Prop :=
  ∃ ys ms ds : List Char,
    s = ys ++ '-' :: (ms ++ '-' :: ds) ∧
      ys.length = 4 ∧ (∀ c ∈ ys, c.isDigit = true) ∧
      ms.length = 2 ∧ (∀ c ∈ ms, c.isDigit = true) ∧
      ds.length = 2 ∧ (∀ c ∈ ds, c.isDigit = true) ∧
      validDate (natOfDigits ys) (natOfDigits ms) (natOfDigits ds) = true

/-- The grammar `strptime` actually enforces: four-digit year, one- or
two-digit month, one- or two-digit day, forming a valid date. -/
def looseYMD (s : List Char) : Prop :=
  ∃ ys ms ds : List Char,
    s = ys ++ '-' :: (ms ++ '-' :: ds) ∧
      ys.length = 4 ∧ (∀ c ∈ ys, c.isDigit = true) ∧
      (ms.length = 1 ∨ ms.length = 2) ∧ (∀ c ∈ ms, c.isDigit = true) ∧
      (ds.length = 1 ∨ ds.length = 2) ∧ (∀ c ∈ ds, c.isDigit = true) ∧
      validDate (natOfDigits ys) (natOfDigits ms) (natOfDigits ds) = true

lemma parseCompDash_some (s : List Char) (m : Nat) (r : List Char)
    (h : parseCompDash s = some (m, r)) :
    ∃ ms, s = ms ++ '-' :: r ∧ (ms.length = 1 ∨ ms.length = 2) ∧
      (∀ c ∈ ms, c.isDigit = true) ∧ natOfDigits ms = m := by
  unfold parseCompDash at h
  split at h
  next a b c r0 =>
    split at h
    next hcond =>
      simp only [Option.some.injEq, Prod.mk.injEq] at h
      obtain ⟨hm, hr⟩ := h
      simp only [Bool.and_eq_true, beq_iff_eq] at hcond
      obtain ⟨⟨ha, hb⟩, hc⟩ := hcond
      subst hc hr
      refine ⟨[a, b], rfl, Or.inr rfl, ?_, ?_⟩
      · intro x hx
        rcases List.mem_pair.mp hx with hx | hx <;> rw [hx] <;> assumption
      · rw [← hm]; simp [natOfDigits]
    next hcond =>
      split at h
      next hcond2 =>
        simp only [Option.some.injEq, Prod.mk.injEq] at h
        obtain ⟨hm, hr⟩ := h
        simp only [Bool.and_eq_true, beq_iff_eq] at hcond2
        obtain ⟨ha, hb⟩ := hcond2
        subst hb hr
        refine ⟨[a], rfl, Or.inl rfl, ?_, ?_⟩
        · intro x hx
          rw [List.mem_singleton.mp hx]
          exact ha
        · rw [← hm]; simp [natOfDigits]
      next => cases h
  next a b =>
    split at h
    next hcond =>
      simp only [Option.some.injEq, Prod.mk.injEq] at h
      obtain ⟨hm, hr⟩ := h
      simp only [Bool.and_eq_true, beq_iff_eq] at hcond
      obtain ⟨ha, hb⟩ := hcond
      subst hb
      rw [← hr]
      refine ⟨[a], rfl, Or.inl rfl, ?_, ?_⟩
      · intro x hx
        rw [List.mem_singleton.mp hx]
        exact ha
      · rw [← hm]; simp [natOfDigits]
    next => cases h
  next => cases h

lemma parseCompEnd_some (s : List Char) (d : Nat) (h : parseCompEnd s = some d) :
    (s.length = 1 ∨ s.length = 2) ∧ (∀ c ∈ s, c.isDigit = true) ∧ natOfDigits s = d := by
  unfold parseCompEnd at h
  split at h
  next a b =>
    split at h
    next hcond =>
      simp only [Option.some.injEq] at h
      simp only [Bool.and_eq_true] at hcond
      refine ⟨Or.inr rfl, ?_, ?_⟩
      · intro x hx
        rcases List.mem_pair.mp hx with hx | hx <;> rw [hx]
        · exact hcond.1
        · exact hcond.2
      · rw [← h]; simp [natOfDigits]
    next => cases h
  next a =>
    split at h
    next hcond =>
      simp only [Option.some.injEq] at h
      refine ⟨Or.inl rfl, ?_, ?_⟩
      · intro x hx
        rw [List.mem_singleton.mp hx]
        exact hcond
      · rw [← h]; simp [natOfDigits]
    next => cases h
  next => cases h

lemma parseCompDash_build1 (a : Char) (r : List Char) (ha : a.isDigit = true) :
    parseCompDash (a :: '-' :: r) = some (natOfDigits [a], r) := by
  have hd : ('-' : Char).isDigit = false := rfl
  cases r with
  | nil => simp [parseCompDash, ha, natOfDigits]
  | cons c r0 => simp [parseCompDash, ha, hd, natOfDigits]

lemma parseCompDash_build2 (a b : Char) (r : List Char) (ha : a.isDigit = true)
    (hb : b.isDigit = true) :
    parseCompDash (a :: b :: '-' :: r) = some (natOfDigits [a, b], r) := by
  simp [parseCompDash, ha, hb, natOfDigits]

lemma parseCompEnd_build1 (a : Char) (ha : a.isDigit = true) :
    parseCompEnd [a] = some (natOfDigits [a]) := by
  simp [parseCompEnd, ha, natOfDigits]

lemma parseCompEnd_build2 (a b : Char) (ha : a.isDigit = true) (hb : b.isDigit = true) :
    parseCompEnd [a, b] = some (natOfDigits [a, b]) := by
  simp [parseCompEnd, ha, hb, natOfDigits]

lemma validPurchaseDate_cons (y1 y2 y3 y4 : Char) (rest : List Char) :
    validPurchaseDate (y1 :: y2 :: y3 :: y4 :: '-' :: rest) =
      if y1.isDigit && y2.isDigit && y3.isDigit && y4.isDigit then
        match parseCompDash rest with
        | some (m, rest2) =>
            match parseCompEnd rest2 with
            | some d => validDate (natOfDigits [y1, y2, y3, y4]) m d
            | none => false
        | none => false
      else false := rfl

lemma length_one_or_two (l : List Char) (h : l.length = 1 ∨ l.length = 2) :
    (∃ a, l = [a]) ∨ ∃ a b, l = [a, b] := by
  cases l with
  | nil => simp at h
  | cons a t =>
      cases t with
      | nil => exact Or.inl ⟨a, rfl⟩
      | cons b t2 =>
          cases t2 with
          | nil => exact Or.inr ⟨a, b, rfl⟩
          | cons c t3 => simp only [List.length_cons] at h; omega

lemma length_four (l : List Char) (h : l.length = 4) : ∃ a b c d, l = [a, b, c, d] := by
  cases l with
  | nil => simp at h
  | cons a t =>
  cases t with
  | nil => simp at h
  | cons b t2 =>
  cases t2 with
  | nil => simp at h
  | cons c t3 =>
  cases t3 with
  | nil => simp at h
  | cons d t4 =>
  cases t4 with
  | nil => exact ⟨a, b, c, d, rfl⟩
  | cons e t5 => simp only [List.length_cons] at h; omega

/-- Counterexample to C2 as stated: the string `"2023-2-3"` is not in exact
four-digit-year, two-digit-month, two-digit-day form, yet `strptime` parses
it, so `validateInput` accepts it. -/
theorem claim2_counterexample :
    validPurchaseDate "2023-2-3".data = true ∧ ¬exactYMD "2023-2-3".data := by
  refine ⟨rfl, ?_⟩
  rintro ⟨ys, ms, ds, heq, h4, -, h2, -, hd2, -, -⟩
  have hlen := congrArg List.length heq
  have h8 : ("2023-2-3".data).length = 8 := rfl
  rw [h8] at hlen
  simp only [List.length_append, List.length_cons] at hlen
  omega

/-- Claim C2 as amended: `validateInput` accepts `purchaseDate` if and only
if the whole string is a four-digit year, a dash, a one- or two-digit month,
a dash and a one- or two-digit day, denoting a valid calendar date (year at
least 1); in particular the non-existent `"2023-02-30"` is rejected. -/
theorem claim2_loose_calendar_date :
    (∀ s : List Char, validPurchaseDate s = true ↔ looseYMD s) ∧
      validPurchaseDate "2023-02-30".data = false := by
  refine ⟨fun s => ⟨?_, ?_⟩, rfl⟩
  · intro h
    unfold validPurchaseDate at h
    split at h
    next y1 y2 y3 y4 rest =>
      split at h
      next hdig =>
        split at h
        next m rest2 heq =>
          split at h
          next d heq2 =>
            obtain ⟨ms, hrest, hlen, hdigs, hm⟩ := parseCompDash_some rest m rest2 heq
            obtain ⟨hlen2, hdigs2, hd⟩ := parseCompEnd_some rest2 d heq2
            simp only [Bool.and_eq_true] at hdig
            refine ⟨[y1, y2, y3, y4], ms, rest2, by rw [hrest]; rfl, rfl, ?_, hlen, hdigs,
              hlen2, hdigs2, ?_⟩
            · intro x hx
              simp only [List.mem_cons, List.not_mem_nil, or_false] at hx
              rcases hx with hx | hx | hx | hx <;> rw [hx]
              · exact hdig.1.1.1
              · exact hdig.1.1.2
              · exact hdig.1.2
              · exact hdig.2
            · rw [hm, hd]
              exact h
          next => cases h
        next => cases h
      next => cases h
    next => cases h
  · rintro ⟨ys, ms, ds, heq, h4, hysd, hmlen, hmsd, hdlen, hdsd, hvd⟩
    obtain ⟨y1, y2, y3, y4, hy⟩ := length_four ys h4
    subst hy heq
    have hdig : (y1.isDigit && y2.isDigit && y3.isDigit && y4.isDigit) = true := by
      simp only [Bool.and_eq_true]
      exact ⟨⟨⟨hysd y1 (by simp), hysd y2 (by simp)⟩, hysd y3 (by simp)⟩, hysd y4 (by simp)⟩
    have hgoal : ∀ t : List Char, parseCompDash t = some (natOfDigits ms, ds) →
        parseCompEnd ds = some (natOfDigits ds) →
        validPurchaseDate ([y1, y2, y3, y4] ++ '-' :: t) = true := by
      intro t hpd hpe
      show validPurchaseDate (y1 :: y2 :: y3 :: y4 :: '-' :: t) = true
      rw [validPurchaseDate_cons, if_pos hdig, hpd]
      show (match parseCompEnd ds with
            | some d => validDate (natOfDigits [y1, y2, y3, y4]) (natOfDigits ms) d
            | none => false) = true
      rw [hpe]
      exact hvd
    have hpe : parseCompEnd ds = some (natOfDigits ds) := by
      rcases length_one_or_two ds hdlen with ⟨a, hds⟩ | ⟨a, b, hds⟩
      · subst hds
        exact parseCompEnd_build1 a (hdsd a (by simp))
      · subst hds
        exact parseCompEnd_build2 a b (hdsd a (by simp)) (hdsd b (by simp))
    rcases length_one_or_two ms hmlen with ⟨a, hms⟩ | ⟨a, b, hms⟩
    · subst hms
      exact hgoal ([a] ++ '-' :: ds) (parseCompDash_build1 a ds (hmsd a (by simp))) hpe
    · subst hms
      exact hgoal ([a, b] ++ '-' :: ds)
        (parseCompDash_build2 a b ds (hmsd a (by simp)) (hmsd b (by simp))) hpe

end FetchReceipts
